import Mathlib

/-!
Shallow embedding of the pdfchatbot repository (a browser PDF viewer with
split / OCR text extraction / chat features) for checking its natural
language specification.  Each definition mirrors one function of the
TypeScript source; external capabilities (the PDF.js text stream, the
Tesseract recognizer, JSON.parse, fetch) are passed in as explicit
parameters.
-/

namespace PdfChatbot

/-- JS `String.prototype.trim`: strip leading and trailing whitespace.
Written over the character list so it evaluates inside the kernel. -/
def jsTrim (s : String) : String :=
  String.mk ((s.data.dropWhile Char.isWhitespace).reverse.dropWhile Char.isWhitespace).reverse

/-- JS `array.join(' ')`. -/
def joinSpace : List String → String
  | [] => ""
  | [s] => s
  | s :: rest => s ++ " " ++ joinSpace rest

/-- User-visible notifications emitted through the `sonner` toast API. -/
inductive Toast where
  | loading (msg : String)
  | dismiss (id : String)
  | success (msg : String)
  | error (msg : String)
  | warning (msg : String)
deriving DecidableEq, Repr

/-- Number of `Toast.error` notifications in a toast trace. -/
def errorToastCount (ts : List Toast) : Nat :=
  (ts.filter (fun t => match t with | Toast.error _ => true | _ => false)).length

/-! ## Split state (PDFViewer in FileUpload.tsx + PDFControls in part_001) -/

/-- The slice of PDFViewer state touched by splitting. -/
structure SplitViewState where
  numPages : Nat
  splitPdfPages : List Nat
  isSplit : Bool
  currentPage : Nat
deriving DecidableEq, Repr

/-- `pages = isSplit ? splitPdfPages : Array.from({length: numPages}, (_, i) => i + 1)`. -/
def activePages (s : SplitViewState) : List Nat :=
  if s.isSplit then s.splitPdfPages else (List.range s.numPages).map (· + 1)

/-- `handleSplit` of PDFViewer: builds `[start, start+1, ...]` of length
`end - start + 1`, marks the document split, resets the current page and
fires a success toast. -/
def viewerHandleSplit (s : SplitViewState) (startPage endPage : Nat) :
    SplitViewState × List Toast :=
  ({ s with
      splitPdfPages := (List.range (endPage - startPage + 1)).map (· + startPage),
      isSplit := true,
      currentPage := startPage },
   [Toast.success ("PDF split from page " ++ toString startPage ++ " to " ++ toString endPage)])

/-- `handleSplit` of PDFControls: guard `startPage <= endPage && startPage >= 1
&& endPage <= numPages`; on failure nothing happens (no toast, no state
change). Inputs come from `Number(...)` fields, hence integers. -/
def controlsHandleSplit (s : SplitViewState) (startPage endPage : Int) :
    SplitViewState × List Toast :=
  if startPage ≤ endPage ∧ 1 ≤ startPage ∧ endPage ≤ (s.numPages : Int) then
    viewerHandleSplit s startPage.toNat endPage.toNat
  else (s, [])

/-! ## Jump-to-page (PDFPageNavigator.tsx + handleJumpToPage of PDFViewer) -/

/-- `totalPages = isSplit ? splitPdfPages.length : numPages` (prop passed to
the navigator). -/
def navTotalPages (s : SplitViewState) : Nat :=
  if s.isSplit then s.splitPdfPages.length else s.numPages

/-- Observable outcome of a jump request. -/
structure JumpOutcome where
  errorToast : Bool
  scrollTo : Option ℚ
  newCurrentPage : Option Nat
deriving DecidableEq, Repr

/-- `targetPage = isSplit ? splitPdfPages[pageNum - 1] : pageNum`. -/
def viewerJumpTarget (s : SplitViewState) (p : Nat) : Nat :=
  if s.isSplit then s.splitPdfPages.getD (p - 1) 0 else p

/-- The navigator validates `1 ≤ p ≤ totalPages` (error toast, no scroll on
failure), then the viewer scrolls to `(targetPage - 1) * (842 * scale)` and
sets the current page to `targetPage`. -/
def handleJumpToPage (s : SplitViewState) (scale : ℚ) (p : Int) : JumpOutcome :=
  if p < 1 ∨ (navTotalPages s : Int) < p then
    { errorToast := true, scrollTo := none, newCurrentPage := none }
  else
    let q := p.toNat
    let targetPage := viewerJumpTarget s q
    let pageHeight : ℚ := 842 * scale
    { errorToast := false,
      scrollTo := some (((targetPage : ℚ) - 1) * pageHeight),
      newCurrentPage := some targetPage }

/-! ## Recent-files cache (handleFileSelect in Index.tsx) -/

/-- One persisted history record `{name, data (base64), lastOpened}`. -/
structure HistoryItem where
  name : String
  data : String
  lastOpened : Nat
deriving DecidableEq, Repr

/-- `MAX_STORAGE_SIZE = 4 * 1024 * 1024`. -/
def MAX_STORAGE_SIZE : Nat := 4 * 1024 * 1024

/-- `estimatedSize = base64Data.length * 0.75 > MAX_STORAGE_SIZE`, written
exactly over the rationals: `len * 3/4 > MAX` iff `3 * len > 4 * MAX`. -/
def fileTooLarge (base64Len : Nat) : Bool :=
  4 * MAX_STORAGE_SIZE < 3 * base64Len

/-- `[historyItem, ...history.filter(item => item.name !== file.name)].slice(0, 3)`. -/
def insertHistory (history : List HistoryItem) (item : HistoryItem) : List HistoryItem :=
  (item :: history.filter (fun h => h.name ≠ item.name)).take 3

/-- The cache update performed by `handleFileSelect`: oversized files are
not cached (warning toast only), otherwise the new item is prepended with
same-name eviction and the list truncated to 3. -/
def handleFileSelectHistory (history : List HistoryItem) (item : HistoryItem) :
    List HistoryItem × List Toast :=
  if fileTooLarge item.data.length then
    (history, [Toast.warning "File too large to save in history"])
  else
    (insertHistory history item, [])

/-! ## Reading the cache (getHistory in part_000 / PDFHistory) -/

/-- Minimal JSON value universe for modelling `JSON.parse` results. -/
inductive Json where
  | null
  | bool (b : Bool)
  | num (n : Int)
  | str (s : String)
  | arr (xs : List Json)
  | obj (fields : List (String × Json))

/-- `getHistory`: storage holds `Option String` (the key may be absent);
`JSON.parse` is the external capability `parse`.  Returns the history list
together with the storage state afterwards (`none` = key removed).
A missing or empty stored value is falsy and yields `[]` untouched; a parse
exception clears the key; a parsed non-array yields `[]` WITHOUT clearing. -/
def getHistory (stored : Option String) (parse : String → Except String Json) :
    List Json × Option String :=
  match stored with
  | none => ([], none)
  | some s =>
    if s = "" then ([], some s)
    else
      match parse s with
      | Except.error _ => ([], none)
      | Except.ok j =>
        match j with
        | Json.arr xs => (xs, some s)
        | _ => ([], some s)

/-! ## Text extraction pipeline (performOCR in part_003 / pdfOCR) -/

/-- External capabilities used by `performOCR`: the loaded PDF's page count,
the PDF.js text-content stream of a page (the list of `item.str` fragments),
image extraction from a page (data URLs), and the Tesseract recognizer.
Any of the asynchronous steps may throw, modelled by `Except ε`. -/
structure OcrEnv (ε : Type) where
  numPages : Nat
  textItems : Nat → Except ε (List String)
  extractImages : Nat → Except ε (List String)
  recognize : String → Except ε String

/-- The inner `for (const imageUrl of images)` loop:
`pageText += ' ' + result.data.text` for each image, propagating a thrown
recognition error. -/
def ocrImages {ε : Type} (recognize : String → Except ε String) (acc : String) :
    List String → Except ε String
  | [] => Except.ok acc
  | img :: rest =>
    match recognize img with
    | Except.error e => Except.error e
    | Except.ok t => ocrImages recognize (acc ++ " " ++ t) rest

/-- The `for (const pageNum of pageNumbers)` loop of `performOCR`, with the
accumulated `fullText`, the pages on which the Tesseract fallback was used
(the code keeps their count as `imageBasedPagesCount`; each such page also
gets a loading toast), and the toast trace.  A throw from any step aborts
the whole loop. -/
def performOCRGo {ε : Type} (env : OcrEnv ε) (pageNumbers : List Nat)
    (fullText : String) (ocrPages : List Nat) (toasts : List Toast) :
    Except ε (String × List Nat) × List Toast :=
  match pageNumbers with
  | [] => (Except.ok (fullText, ocrPages), toasts)
  | pageNum :: rest =>
    if env.numPages < pageNum ∨ pageNum < 1 then
      performOCRGo env rest fullText ocrPages toasts
    else
      match env.textItems pageNum with
      | Except.error e => (Except.error e, toasts)
      | Except.ok items =>
        let pageText := joinSpace items
        if (jsTrim pageText).length < 50 then
          let toasts2 := toasts ++
            [Toast.loading ("Page " ++ toString pageNum ++
              " appears to be image-based, using advanced OCR...")]
          match env.extractImages pageNum with
          | Except.error e => (Except.error e, toasts2)
          | Except.ok imgs =>
            match ocrImages env.recognize pageText imgs with
            | Except.error e => (Except.error e, toasts2)
            | Except.ok pageText2 =>
              performOCRGo env rest
                (fullText ++ "Page " ++ toString pageNum ++ ":\n" ++ jsTrim pageText2 ++ "\n\n")
                (ocrPages ++ [pageNum])
                (toasts2 ++ [Toast.dismiss ("ocr-page-" ++ toString pageNum)])
        else
          performOCRGo env rest
            (fullText ++ "Page " ++ toString pageNum ++ ":\n" ++ jsTrim pageText ++ "\n\n")
            ocrPages toasts

/-- The OCR result record. -/
structure OcrResult where
  text : String
deriving DecidableEq, Repr

/-- `performOCR`: runs the page loop; on a throw the catch block fires one
error toast and rethrows; on success a summary toast is fired when any page
used the fallback, and an empty `fullText` (falsy) is replaced by the
sentinel string. -/
def performOCR {ε : Type} (env : OcrEnv ε) (pageNumbers : List Nat) :
    Except ε OcrResult × List Toast :=
  match performOCRGo env pageNumbers "" [] [] with
  | (Except.error e, ts) =>
    (Except.error e, ts ++ [Toast.error "Failed to extract text from PDF"])
  | (Except.ok (fullText, ops), ts) =>
    let ts2 := if 0 < ops.length then
        ts ++ [Toast.success ("Advanced OCR completed on " ++ toString ops.length ++
          " image-based pages")]
      else ts
    (Except.ok ⟨if fullText = "" then "No text found in the PDF." else fullText⟩, ts2)

/-- The text one page contributes (before trimming), factored out of the
loop: the fast-path join of the text items, extended by the recognizer's
output when the trimmed fast-path text is shorter than 50 characters. -/
def pageExtractedText {ε : Type} (env : OcrEnv ε) (pageNum : Nat) : Except ε String :=
  match env.textItems pageNum with
  | Except.error e => Except.error e
  | Except.ok items =>
    let pageText := joinSpace items
    if (jsTrim pageText).length < 50 then
      match env.extractImages pageNum with
      | Except.error e => Except.error e
      | Except.ok imgs => ocrImages env.recognize pageText imgs
    else Except.ok pageText

/-- Value of a successful per-page extraction (unused default otherwise). -/
def pageExtractedTextD {ε : Type} (env : OcrEnv ε) (pageNum : Nat) : String :=
  match pageExtractedText env pageNum with
  | Except.ok t => t
  | Except.error _ => ""

/-- The `Page <n>:` section a page contributes to the full text. -/
def pageSection {ε : Type} (env : OcrEnv ε) (pageNum : Nat) : String :=
  "Page " ++ toString pageNum ++ ":\n" ++ jsTrim (pageExtractedTextD env pageNum) ++ "\n\n"

/-- The concatenation, in list order, of the `Page <n>:` sections of the
given pages. -/
def joinSections {ε : Type} (env : OcrEnv ε) : List Nat → String
  | [] => ""
  | n :: rest => pageSection env n ++ joinSections env rest

/-! ## OCR caller (handlePerformOCR in PDFViewer) -/

/-- The slice of PDFViewer state touched by `handlePerformOCR`. -/
structure ViewerOcrState where
  isSplit : Bool
  splitPdfPages : List Nat
  ocrText : String
  showChat : Bool
deriving DecidableEq, Repr

/-- `handlePerformOCR`: requires a split first; shows a loading toast, runs
`performOCR` on the split pages; on success stores the text and opens the
chat; on a throw it leaves the state untouched and fires its own error
toast. -/
def handlePerformOCR {ε : Type} (env : OcrEnv ε) (s : ViewerOcrState) :
    ViewerOcrState × List Toast :=
  if s.isSplit = false ∨ s.splitPdfPages = [] then
    (s, [Toast.error "Please split the PDF first before performing OCR"])
  else
    let ts0 := [Toast.loading "Extracting text from PDF pages..."]
    match performOCR env s.splitPdfPages with
    | (Except.error _, innerTs) =>
      (s, ts0 ++ innerTs ++ [Toast.dismiss "loading",
        Toast.error "Failed to extract text from PDF. Please try again."])
    | (Except.ok result, innerTs) =>
      ({ s with ocrText := result.text, showChat := true },
       ts0 ++ innerTs ++ [Toast.dismiss "loading",
        Toast.success "OCR completed! You can now ask questions about the content."])

/-! ## Chat assistant (handleSubmit in ChatBot.tsx) -/

/-- Message roles of the transcript. -/
inductive Role where
  | user
  | assistant
deriving DecidableEq, Repr

/-- One transcript entry. -/
structure Message where
  role : Role
  content : String
deriving DecidableEq, Repr

/-- Outcome of the `fetch` call: either the promise rejected (carrying the
JS error message, e.g. `Failed to fetch`) or an HTTP response arrived with a
status code and a body text. -/
inductive FetchResult where
  | thrown (msg : String)
  | response (status : Nat) (body : String)

/-- `String.prototype.includes`, written out over the character lists. -/
def charsHasPfx : List Char → List Char → Bool
  | [], _ => true
  | _ :: _, [] => false
  | p :: ps, c :: cs => p = c && charsHasPfx ps cs

/-- Whether `pat` occurs somewhere in `l`. -/
def charsContains (pat : List Char) : List Char → Bool
  | [] => charsHasPfx pat []
  | c :: cs => charsHasPfx pat (c :: cs) || charsContains pat cs

/-- `s.includes(pat)`. -/
def strContains (s pat : String) : Bool :=
  charsContains pat.data s.data

/-- JS property access `j[k]` on a parsed JSON value (`undefined` = none). -/
def jsField : Json → String → Option Json
  | Json.obj fs, k => fs.lookup k
  | _, _ => none

/-- Extract a string value (model restriction: non-string message fields are
treated as absent). -/
def jsStrVal : Option Json → Option String
  | some (Json.str s) => some s
  | _ => none

/-- JS truthiness of a JSON value. -/
def jsTruthy : Json → Bool
  | Json.null => false
  | Json.bool b => b
  | Json.num n => n ≠ 0
  | Json.str s => s ≠ ""
  | Json.arr _ => true
  | Json.obj _ => true

/-- `v || fallback` on optional string values, with `""` falsy. -/
def jsOrString (v : Option String) (fallback : String) : String :=
  match v with
  | some s => if s = "" then fallback else s
  | none => fallback

/-- The error message derived from a non-ok response:
`errorData.error?.message || errorData.message || "Failed to get response
from AI"` when the body parses, else `HTTP <status>: <body>`. -/
def deriveErrorMessage (status : Nat) (body : String)
    (parse : String → Except String Json) : String :=
  match parse body with
  | Except.ok data =>
    jsOrString (jsStrVal ((jsField data "error").bind (fun e => jsField e "message")))
      (jsOrString (jsStrVal (jsField data "message")) "Failed to get response from AI")
  | Except.error _ => "HTTP " ++ toString status ++ ": " ++ body

/-- The interim placeholder content. -/
def thinkingMsg : String := "Thinking..."

/-- `prev.filter(m => m.content !== "Thinking...")`. -/
def removeThinking (ms : List Message) : List Message :=
  ms.filter (fun m => m.content ≠ thinkingMsg)

/-- The catch block's categorization of `error.message`. -/
def categorizeError (msg : String) : String :=
  if strContains msg "Failed to fetch" || strContains msg "NetworkError" then
    "Network error. Please check your internet connection and try again."
  else if strContains msg "401" then
    "Authentication error. The API key may be invalid."
  else if strContains msg "429" then
    "Rate limit exceeded. Please wait a moment and try again."
  else if strContains msg "404" then
    "The AI model is not available. Please try again later."
  else "Error: " ++ msg

/-- The catch block's transcript update: remove the placeholder, append the
categorized assistant error turn. -/
def failTranscript (ms : List Message) (errMsg : String) : List Message :=
  removeThinking ms ++
    [⟨Role.assistant, categorizeError errMsg ++ " Please try again or rephrase your question."⟩]

/-- Final transcript and toast trace of `handleSubmit`, given the transcript
so far, the raw input, the processing flag, whether the API key is set, the
outcome of `fetch`, and `JSON.parse` (whose error carries the JS message).
`data.choices[0].message` access and the truthiness checks
`!data.choices || !data.choices[0] || !data.choices[0].message` are inlined. -/
def handleSubmit (messages : List Message) (input : String) (isProcessing : Bool)
    (apiKeySet : Bool) (fetchRes : FetchResult)
    (parse : String → Except String Json) : List Message × List Toast :=
  if jsTrim input = "" ∨ isProcessing then (messages, [])
  else if apiKeySet = false then
    (messages, [Toast.error "API key not configured. Please check your environment variables."])
  else
    let ms2 := messages ++ [⟨Role.user, jsTrim input⟩, ⟨Role.assistant, thinkingMsg⟩]
    let ts1 := [Toast.loading "Processing your question..."]
    let failTs := ts1 ++ [Toast.dismiss "loading", Toast.error "Failed to generate response"]
    match fetchRes with
    | FetchResult.thrown emsg => (failTranscript ms2 emsg, failTs)
    | FetchResult.response status body =>
      let ms3 := removeThinking ms2
      if 200 ≤ status ∧ status ≤ 299 then
        match parse body with
        | Except.error pmsg => (failTranscript ms3 pmsg, failTs)
        | Except.ok data =>
          match jsField data "choices" with
          | some (Json.arr (c0 :: _)) =>
            if jsTruthy c0 then
              match jsField c0 "message" with
              | some m =>
                if jsTruthy m then
                  match jsStrVal (jsField m "content") with
                  | some ai =>
                    if jsTrim ai = "" then
                      (failTranscript ms3 "Empty response from AI", failTs)
                    else
                      (ms3 ++ [⟨Role.assistant, ai⟩],
                       ts1 ++ [Toast.dismiss "loading",
                        Toast.success "Response generated successfully!"])
                  | none => (failTranscript ms3 "Empty response from AI", failTs)
                else (failTranscript ms3 "Invalid response format from API", failTs)
              | none => (failTranscript ms3 "Invalid response format from API", failTs)
            else (failTranscript ms3 "Invalid response format from API", failTs)
          | _ => (failTranscript ms3 "Invalid response format from API", failTs)
      else
        (failTranscript ms3 (deriveErrorMessage status body parse), failTs)

/-! ## Theorems -/

/-- C1: jump-to-page is claimed to scroll a valid target `p` to offset
`(p-1) × pageHeight × scale`, the index of `p` within the active page range
times the estimated page height.  Evaluating the code at the failing input
(document split to pages `[5..10]`, scale 1, target `p = 2`): the code
scrolls to `(splitPdfPages[p-1] - 1) × 842 = 4210`, the index within the
FULL document, not `(p-1) × 842 = 842`, the index within the active range
that the virtualized layout actually uses. -/
theorem c1_jump_offset_bug :
    handleJumpToPage ⟨10, [5, 6, 7, 8, 9, 10], true, 5⟩ 1 2 =
      ⟨false, some 4210, some 6⟩ ∧
    (4210 : ℚ) ≠ ((2 : ℚ) - 1) * (842 * 1) := by
  constructor
  · rw [handleJumpToPage, if_neg (by norm_num [navTotalPages])]
    simp only [viewerJumpTarget, if_pos]
    norm_num [show (([5, 6, 7, 8, 9, 10] : List Nat)[Int.toNat 2 - 1]?).getD 0 = 6 from rfl]
  · norm_num

/-- C5: after any insert on a cache of at most 3 uniquely-named entries, the
cache again has at most 3 entries and no two entries share a name, and an
insert whose estimated decoded size exceeds 4 MiB leaves the cache
unchanged. -/
theorem c5_cache_invariant (h : List HistoryItem) (i : HistoryItem)
    (hlen : h.length ≤ 3) (hnd : (h.map HistoryItem.name).Nodup) :
    ((handleFileSelectHistory h i).1.length ≤ 3 ∧
      ((handleFileSelectHistory h i).1.map HistoryItem.name).Nodup) ∧
    (fileTooLarge i.data.length = true → (handleFileSelectHistory h i).1 = h) := by
  unfold handleFileSelectHistory
  by_cases hbig : fileTooLarge i.data.length
  · rw [if_pos hbig]
    exact ⟨⟨hlen, hnd⟩, fun _ => rfl⟩
  · rw [if_neg hbig]
    refine ⟨⟨?_, ?_⟩, fun hc => absurd hc hbig⟩
    · unfold insertHistory
      rw [List.length_take]
      exact Nat.min_le_left 3 _
    · unfold insertHistory
      have hcons : ((i :: h.filter fun x => x.name ≠ i.name).map HistoryItem.name).Nodup := by
        rw [List.map_cons, List.nodup_cons]
        constructor
        · intro hmem
          obtain ⟨x, hx, hxe⟩ := List.mem_map.mp hmem
          have hne := (List.mem_filter.mp hx).2
          simp only [ne_eq, decide_not, Bool.not_eq_true', decide_eq_false_iff_not] at hne
          exact hne hxe
        · exact ((List.filter_sublist h).map HistoryItem.name).nodup hnd
      exact ((List.take_sublist 3 _).map HistoryItem.name).nodup hcons

/-- C5 witness: inserting a small file named `b` into the singleton cache
`[a]` preserves the size bound and name uniqueness. -/
theorem c5_cache_invariant_witness :
    (handleFileSelectHistory [⟨"a", "x", 1⟩] ⟨"b", "y", 2⟩).1.length ≤ 3 ∧
    ((handleFileSelectHistory [⟨"a", "x", 1⟩] ⟨"b", "y", 2⟩).1.map HistoryItem.name).Nodup :=
  (c5_cache_invariant [⟨"a", "x", 1⟩] ⟨"b", "y", 2⟩ (by decide) (by decide)).1

/-- C6: for `1 ≤ start ≤ end ≤ numPages` the split control makes the active
page sequence exactly `[start, start+1, ..., end]`, resets the current page
indicator to `start`, and marks the document split. -/
theorem c6_split_valid (s : SplitViewState) (a b : Nat)
    (h1 : 1 ≤ a) (h2 : a ≤ b) (h3 : b ≤ s.numPages) :
    activePages (controlsHandleSplit s (a : Int) (b : Int)).1 = List.range' a (b - a + 1) ∧
    (controlsHandleSplit s (a : Int) (b : Int)).1.currentPage = a ∧
    (controlsHandleSplit s (a : Int) (b : Int)).1.isSplit = true := by
  have hcond : (a : Int) ≤ (b : Int) ∧ 1 ≤ (a : Int) ∧ (b : Int) ≤ (s.numPages : Int) :=
    ⟨by exact_mod_cast h2, by exact_mod_cast h1, by exact_mod_cast h3⟩
  unfold controlsHandleSplit
  rw [if_pos hcond]
  unfold viewerHandleSplit activePages
  refine ⟨?_, by simp [Int.toNat_natCast], by simp⟩
  simp only [Int.toNat_natCast, if_pos]
  rw [List.range'_eq_map_range]
  exact List.map_congr_left fun x _ => Nat.add_comm x a

/-- C6 witness: splitting a 10-page document to `(2, 4)` yields active pages
`[2, 3, 4]` and current page 2. -/
theorem c6_split_valid_witness :
    activePages (controlsHandleSplit ⟨10, [], false, 1⟩ (2 : Int) (4 : Int)).1 =
      List.range' 2 (4 - 2 + 1) ∧
    (controlsHandleSplit ⟨10, [], false, 1⟩ (2 : Int) (4 : Int)).1.currentPage = 2 ∧
    (controlsHandleSplit ⟨10, [], false, 1⟩ (2 : Int) (4 : Int)).1.isSplit = true :=
  c6_split_valid ⟨10, [], false, 1⟩ 2 4 (by decide) (by decide) (by decide)

/-- C7: an invalid split range (`start > end`, `start < 1` or
`end > numPages`) fires no state change at all — active sequence, current
page and split flag are untouched — and is silent (no toast). -/
theorem c7_split_invalid_silent (s : SplitViewState) (a b : Int)
    (h : b < a ∨ a < 1 ∨ (s.numPages : Int) < b) :
    controlsHandleSplit s a b = (s, []) := by
  unfold controlsHandleSplit
  rw [if_neg]
  rintro ⟨h1, h2, h3⟩
  omega

/-- C7 witness: requesting the split `(3, 2)` on a 10-page document changes
nothing and emits nothing. -/
theorem c7_split_invalid_silent_witness :
    controlsHandleSplit ⟨10, [2, 3], true, 2⟩ 3 2 = (⟨10, [2, 3], true, 2⟩, []) :=
  c7_split_invalid_silent ⟨10, [2, 3], true, 2⟩ 3 2 (by left; decide)

/-- C8 counterexample: a stored value that parses fine but is not an array
(here the parse oracle returns an object) makes `getHistory` return the
empty list, yet the storage key is NOT removed — refuting the claim that
the corrupt key is cleared in both corruption cases. -/
theorem c8_counterexample :
    getHistory (some "notanarray") (fun _ => Except.ok (Json.obj [])) =
      ([], some "notanarray") ∧
    (some "notanarray" : Option String) ≠ none := by
  exact ⟨rfl, by simp⟩

/-- C8 amended: reading a corrupt cache returns the empty list in both
corruption cases, but the storage key is removed only when parsing throws;
a successfully parsed non-array value leaves the key in place. -/
theorem c8_amended (s : String) (parse : String → Except String Json) (hs : s ≠ "") :
    (∀ e, parse s = Except.error e → getHistory (some s) parse = ([], none)) ∧
    (∀ j, parse s = Except.ok j → (∀ xs, j ≠ Json.arr xs) →
      getHistory (some s) parse = ([], some s)) := by
  constructor
  · intro e he
    simp [getHistory, hs, he]
  · intro j hj hne
    cases j with
    | arr xs => exact absurd rfl (hne xs)
    | null => simp [getHistory, hs, hj]
    | bool b => simp [getHistory, hs, hj]
    | num n => simp [getHistory, hs, hj]
    | str t => simp [getHistory, hs, hj]
    | obj fs => simp [getHistory, hs, hj]

/-- Helper: counting error toasts distributes over append. -/
theorem errorToastCount_append (a b : List Toast) :
    errorToastCount (a ++ b) = errorToastCount a + errorToastCount b := by
  simp [errorToastCount, List.filter_append]

/-- Helper: the empty trace has no error toasts. -/
theorem errorToastCount_nil : errorToastCount [] = 0 := rfl

/-- Helper: a loading toast does not count as an error toast. -/
theorem errorToastCount_cons_loading (m : String) (ts : List Toast) :
    errorToastCount (Toast.loading m :: ts) = errorToastCount ts := rfl

/-- Helper: a dismiss toast does not count as an error toast. -/
theorem errorToastCount_cons_dismiss (m : String) (ts : List Toast) :
    errorToastCount (Toast.dismiss m :: ts) = errorToastCount ts := rfl

/-- Helper: a success toast does not count as an error toast. -/
theorem errorToastCount_cons_success (m : String) (ts : List Toast) :
    errorToastCount (Toast.success m :: ts) = errorToastCount ts := rfl

/-- Helper: an error toast counts once. -/
theorem errorToastCount_cons_error (m : String) (ts : List Toast) :
    errorToastCount (Toast.error m :: ts) = errorToastCount ts + 1 := rfl

/-- Helper: the page loop itself never fires an error toast; extraction
errors are thrown to the caller. -/
theorem performOCRGo_no_errorToast {ε : Type} (env : OcrEnv ε) (l : List Nat) :
    ∀ ft ops ts, errorToastCount (performOCRGo env l ft ops ts).2 = errorToastCount ts := by
  induction l with
  | nil => intro ft ops ts; rfl
  | cons p rest ih =>
    intro ft ops ts
    by_cases hrange : env.numPages < p ∨ p < 1
    · rw [performOCRGo, if_pos hrange]
      exact ih _ _ _
    · have hrange2 : ¬ (env.numPages < p ∨ p = 0) := by
        simpa [Nat.lt_one_iff] using hrange
      rcases htm : env.textItems p with e | items
      · simp [performOCRGo, hrange, hrange2, htm]
      · by_cases hlow : (jsTrim (joinSpace items)).length < 50
        · rcases him : env.extractImages p with e2 | imgs
          · simp [performOCRGo, hrange, hrange2, htm, hlow, him, errorToastCount_append,
              errorToastCount_cons_loading, errorToastCount_nil]
          · rcases hoi : ocrImages env.recognize (joinSpace items) imgs
              with e3 | pt2
            · simp [performOCRGo, hrange, hrange2, htm, hlow, him, hoi,
                errorToastCount_append, errorToastCount_cons_loading, errorToastCount_nil]
            · simp [performOCRGo, hrange, hrange2, htm, hlow, him, hoi, ih,
                errorToastCount_append, errorToastCount_cons_loading,
                errorToastCount_cons_dismiss, errorToastCount_nil]
        · simp [performOCRGo, hrange, hrange2, htm, hlow, ih]

/-- C2 counterexample: with a text extractor that throws on the (split)
page 1, the whole batch fails, the state is unchanged, but TWO user-visible
failure toasts are surfaced (one by `performOCR` itself, one by its
caller), refuting "exactly one". -/
theorem c2_counterexample :
    (handlePerformOCR ⟨3, fun _ => Except.error (), fun _ => Except.error (),
        fun _ => Except.error ()⟩ ⟨true, [1], "", false⟩).1 = ⟨true, [1], "", false⟩ ∧
    errorToastCount (handlePerformOCR ⟨3, fun _ => Except.error (), fun _ => Except.error (),
        fun _ => Except.error ()⟩ ⟨true, [1], "", false⟩).2 = 2 ∧
    ¬ errorToastCount (handlePerformOCR ⟨3, fun _ => Except.error (), fun _ => Except.error (),
        fun _ => Except.error ()⟩ ⟨true, [1], "", false⟩).2 = 1 := by
  refine ⟨rfl, rfl, ?_⟩
  intro hcontra
  rw [show errorToastCount (handlePerformOCR ⟨3, fun _ => Except.error (),
    fun _ => Except.error (), fun _ => Except.error ()⟩
    (⟨true, [1], "", false⟩ : ViewerOcrState)).2 = 2 from rfl] at hcontra
  cases hcontra

/-- C2 amended: when the extraction of any page throws, `performOCR`
propagates the failure for the whole batch, the stored extracted-text
record is not updated (the state is untouched, so earlier pages' results
are discarded), and two user-visible failure toasts are surfaced — one by
`performOCR`, one by its caller — rather than exactly one. -/
theorem c2_amended {ε : Type} (env : OcrEnv ε) (s : ViewerOcrState) (e : ε)
    (hsplit : s.isSplit = true) (hne : s.splitPdfPages ≠ [])
    (hfail : (performOCRGo env s.splitPdfPages "" [] []).1 = Except.error e) :
    (handlePerformOCR env s).1 = s ∧
    errorToastCount (handlePerformOCR env s).2 = 2 := by
  have hguard : ¬ (s.isSplit = false ∨ s.splitPdfPages = []) := by
    rintro (hfalse | hnil)
    · rw [hsplit] at hfalse; cases hfalse
    · exact hne hnil
  rcases hgo : performOCRGo env s.splitPdfPages "" [] [] with ⟨res, ts⟩
  have hts : errorToastCount ts = 0 := by
    have hcount := performOCRGo_no_errorToast env s.splitPdfPages "" [] []
    rw [hgo] at hcount
    simpa [errorToastCount] using hcount
  rw [hgo] at hfail
  simp only at hfail
  subst hfail
  unfold handlePerformOCR performOCR
  rw [if_neg hguard, hgo]
  simp [errorToastCount_append, errorToastCount_cons_loading, errorToastCount_cons_dismiss,
    errorToastCount_cons_error, errorToastCount_nil, hts]

/-- C2 witness: the amended statement at the throwing extractor. -/
theorem c2_amended_witness :
    (handlePerformOCR ⟨3, fun _ => Except.error (), fun _ => Except.error (),
        fun _ => Except.error ()⟩ ⟨true, [1], "", false⟩).1 = ⟨true, [1], "", false⟩ ∧
    errorToastCount (handlePerformOCR ⟨3, fun _ => Except.error (), fun _ => Except.error (),
        fun _ => Except.error ()⟩ ⟨true, [1], "", false⟩).2 = 2 :=
  c2_amended ⟨3, fun _ => Except.error (), fun _ => Except.error (), fun _ => Except.error ()⟩
    ⟨true, [1], "", false⟩ () rfl (by simp) rfl

/-- Helper: for a page `n` in range whose fast-path extraction succeeds,
membership of `n` in the fallback-page trace of a successful loop run is
decided exactly by the 50-character threshold on its trimmed fast-path
text. -/
theorem performOCRGo_ops_mem {ε : Type} (env : OcrEnv ε) (n : Nat) (items : List String)
    (h1 : 1 ≤ n) (h2 : n ≤ env.numPages) (hitems : env.textItems n = Except.ok items) :
    ∀ (l : List Nat) (ft : String) (ops0 : List Nat) (ts0 : List Toast)
      (txt : String) (ops : List Nat) (ts : List Toast),
      performOCRGo env l ft ops0 ts0 = (Except.ok (txt, ops), ts) →
      (n ∈ ops ↔ n ∈ ops0 ∨
        (n ∈ l ∧ (jsTrim (joinSpace items)).length < 50)) := by
  intro l
  induction l with
  | nil =>
    intro ft ops0 ts0 txt ops ts hrun
    rw [performOCRGo] at hrun
    simp only [Prod.mk.injEq, Except.ok.injEq] at hrun
    obtain ⟨⟨hft, hops⟩, hts⟩ := hrun
    subst hops
    simp
  | cons m rest ih =>
    intro ft ops0 ts0 txt ops ts hrun
    by_cases hrange : env.numPages < m ∨ m < 1
    · rw [performOCRGo, if_pos hrange] at hrun
      have hmn : n ≠ m := by
        rintro rfl
        omega
      rw [ih _ _ _ _ _ _ hrun]
      simp [List.mem_cons, hmn]
    · rcases htm : env.textItems m with e | items_m
      · rw [performOCRGo, if_neg hrange, htm] at hrun
        simp at hrun
      · by_cases hlow : (jsTrim (joinSpace items_m)).length < 50
        · rcases him : env.extractImages m with e2 | imgs
          · rw [performOCRGo, if_neg hrange, htm] at hrun
            simp only [hlow, if_pos, him] at hrun
            simp at hrun
          · rcases hoi : ocrImages env.recognize (joinSpace items_m) imgs
              with e3 | pt2
            · rw [performOCRGo, if_neg hrange, htm] at hrun
              simp only [hlow, if_pos, him, hoi] at hrun
              simp at hrun
            · rw [performOCRGo, if_neg hrange, htm] at hrun
              simp only [hlow, if_pos, him, hoi] at hrun
              rw [ih _ _ _ _ _ _ hrun]
              by_cases hmn : n = m
              · subst hmn
                rw [hitems] at htm
                injection htm with hsame
                subst hsame
                simp [List.mem_append, hlow]
              · simp [List.mem_append, List.mem_cons, hmn]
        · rw [performOCRGo, if_neg hrange, htm] at hrun
          simp only [hlow, if_neg] at hrun
          rw [ih _ _ _ _ _ _ hrun]
          by_cases hmn : n = m
          · subst hmn
            rw [hitems] at htm
            injection htm with hsame
            subst hsame
            simp [List.mem_cons, hlow]
          · simp [List.mem_cons, hmn]

/-- C3: in any successful extraction run, a processed in-range page whose
trimmed fast-path text has length at least 50 never appears among the
fallback (image-recognition) pages, and a page below that threshold always
does. -/
theorem c3_fallback_threshold {ε : Type} (env : OcrEnv ε) (l : List Nat) (n : Nat)
    (items : List String) (txt : String) (ops : List Nat) (ts : List Toast)
    (hmem : n ∈ l) (h1 : 1 ≤ n) (h2 : n ≤ env.numPages)
    (hitems : env.textItems n = Except.ok items)
    (hrun : performOCRGo env l "" [] [] = (Except.ok (txt, ops), ts)) :
    n ∈ ops ↔ (jsTrim (joinSpace items)).length < 50 := by
  rw [performOCRGo_ops_mem env n items h1 h2 hitems l "" [] [] txt ops ts hrun]
  simp [hmem]

/-- C3 witness: a page with 50 characters of native text is not a fallback
page. -/
theorem c3_fallback_threshold_witness :
    1 ∈ ([] : List Nat) ↔
      (jsTrim (joinSpace
        ["xxxxxxxxxxxxxxxxxxxxxxxxxxxxxxxxxxxxxxxxxxxxxxxxxx"])).length < 50 :=
  c3_fallback_threshold
    (⟨1, fun _ => Except.ok ["xxxxxxxxxxxxxxxxxxxxxxxxxxxxxxxxxxxxxxxxxxxxxxxxxx"],
      fun _ => Except.ok [], fun s => Except.ok s⟩ : OcrEnv Unit)
    [1] 1 ["xxxxxxxxxxxxxxxxxxxxxxxxxxxxxxxxxxxxxxxxxxxxxxxxxx"]
    ("Page 1:\nxxxxxxxxxxxxxxxxxxxxxxxxxxxxxxxxxxxxxxxxxxxxxxxxxx\n\n") [] []
    (by decide) (by decide) (by decide) rfl rfl

/-- Helper: when every page of the list is in range and extracts
successfully, the loop appends exactly the ordered concatenation of the
per-page sections to the accumulated text. -/
theorem performOCRGo_ok_text {ε : Type} (env : OcrEnv ε) :
    ∀ (l : List Nat), (∀ n ∈ l, 1 ≤ n ∧ n ≤ env.numPages) →
      (∀ n ∈ l, ∃ t, pageExtractedText env n = Except.ok t) →
      ∀ ft ops0 ts0, ∃ ops ts,
        performOCRGo env l ft ops0 ts0 =
          (Except.ok (ft ++ joinSections env l, ops), ts) := by
  intro l
  induction l with
  | nil =>
    intro _ _ ft ops0 ts0
    exact ⟨ops0, ts0, by simp [performOCRGo, joinSections, String.append_empty]⟩
  | cons m rest ih =>
    intro hin hok ft ops0 ts0
    have hm := hin m (List.mem_cons_self m rest)
    have hrange : ¬ (env.numPages < m ∨ m < 1) := by omega
    obtain ⟨t, ht⟩ := hok m (List.mem_cons_self m rest)
    have ih2 := ih (fun n hn => hin n (List.mem_cons_of_mem m hn))
      (fun n hn => hok n (List.mem_cons_of_mem m hn))
    rcases htm : env.textItems m with e | items
    · rw [pageExtractedText, htm] at ht
      cases ht
    · by_cases hlow : (jsTrim (joinSpace items)).length < 50
      · rcases him : env.extractImages m with e2 | imgs
        · simp [pageExtractedText, htm, hlow, him] at ht
        · rcases hoi : ocrImages env.recognize (joinSpace items) imgs with e3 | pt2
          · simp [pageExtractedText, htm, hlow, him, hoi] at ht
          · have hpd : pageExtractedTextD env m = pt2 := by
              simp [pageExtractedTextD, pageExtractedText, htm, hlow, him, hoi]
            obtain ⟨ops, ts, hrec⟩ :=
              ih2 (ft ++ "Page " ++ toString m ++ ":\n" ++ jsTrim pt2 ++ "\n\n")
                (ops0 ++ [m]) (ts0 ++
                  [Toast.loading ("Page " ++ toString m ++
                    " appears to be image-based, using advanced OCR...")] ++
                  [Toast.dismiss ("ocr-page-" ++ toString m)])
            refine ⟨ops, ts, ?_⟩
            rw [performOCRGo, if_neg hrange, htm]
            simp only [hlow, if_pos, him, hoi, List.append_assoc] at hrec ⊢
            rw [hrec]
            simp [joinSections, pageSection, hpd, String.append_assoc]
      · have htv : t = joinSpace items := by
          simp [pageExtractedText, htm, hlow] at ht
          exact ht.symm
        have hpd : pageExtractedTextD env m = joinSpace items := by
          simp [pageExtractedTextD, pageExtractedText, htm, hlow]
        obtain ⟨ops, ts, hrec⟩ :=
          ih2 (ft ++ "Page " ++ toString m ++ ":\n" ++ jsTrim (joinSpace items) ++ "\n\n")
            ops0 ts0
        refine ⟨ops, ts, ?_⟩
        rw [performOCRGo, if_neg hrange, htm]
        simp only [hlow, if_neg]
        rw [hrec]
        simp [joinSections, pageSection, hpd, String.append_assoc]

/-- C4: for an ordered list of in-range page numbers on which every page
extraction succeeds, the string returned by `performOCR` is exactly the
concatenation, in input order, of one `Page <n>:` header per page, each
followed by that page's (trimmed) extracted text and a blank-line
separator. -/
theorem c4_sections_in_order {ε : Type} (env : OcrEnv ε) (l : List Nat)
    (hin : ∀ n ∈ l, 1 ≤ n ∧ n ≤ env.numPages)
    (hok : ∀ n ∈ l, ∃ t, pageExtractedText env n = Except.ok t)
    (hne : l ≠ []) :
    (performOCR env l).1 = Except.ok ⟨joinSections env l⟩ := by
  obtain ⟨ops, ts, hrec⟩ := performOCRGo_ok_text env l hin hok "" [] []
  rw [String.empty_append] at hrec
  have hnonempty : joinSections env l ≠ "" := by
    cases l with
    | nil => exact absurd rfl hne
    | cons m rest =>
      intro hcontra
      have hlen := congrArg String.length hcontra
      rw [joinSections] at hlen
      simp only [pageSection, String.length_append] at hlen
      have hfive : ("Page " : String).length = 5 := rfl
      have hzero : ("" : String).length = 0 := rfl
      rw [hfive, hzero] at hlen
      omega
  unfold performOCR
  rw [hrec]
  simp [hnonempty]

/-- C4 witness: one in-range page with 50 characters of native text yields
exactly its own section. -/
theorem c4_sections_in_order_witness :
    (performOCR
      (⟨1, fun _ => Except.ok ["yyyyyyyyyyyyyyyyyyyyyyyyyyyyyyyyyyyyyyyyyyyyyyyyyy"],
        fun _ => Except.ok [], fun s => Except.ok s⟩ : OcrEnv Unit) [1]).1 =
    Except.ok ⟨joinSections
      (⟨1, fun _ => Except.ok ["yyyyyyyyyyyyyyyyyyyyyyyyyyyyyyyyyyyyyyyyyyyyyyyyyy"],
        fun _ => Except.ok [], fun s => Except.ok s⟩ : OcrEnv Unit) [1]⟩ :=
  c4_sections_in_order
    (⟨1, fun _ => Except.ok ["yyyyyyyyyyyyyyyyyyyyyyyyyyyyyyyyyyyyyyyyyyyyyyyyyy"],
      fun _ => Except.ok [], fun s => Except.ok s⟩ : OcrEnv Unit) [1]
    (by intro n hn; simp at hn; subst hn; exact ⟨Nat.le_refl 1, Nat.le_refl 1⟩)
    (by
      intro n hn
      simp at hn
      subst hn
      exact ⟨"yyyyyyyyyyyyyyyyyyyyyyyyyyyyyyyyyyyyyyyyyyyyyyyyyy", rfl⟩)
    (by simp)

/-- Helper: the loop behaves identically on a page list and on its
restriction to in-range pages — out-of-range pages are skipped without any
observable effect. -/
theorem performOCRGo_filter_inRange {ε : Type} (env : OcrEnv ε) :
    ∀ (l : List Nat) (ft : String) (ops : List Nat) (ts : List Toast),
      performOCRGo env l ft ops ts =
        performOCRGo env
          (l.filter fun n => decide (1 ≤ n) && decide (n ≤ env.numPages)) ft ops ts := by
  intro l
  induction l with
  | nil => intro ft ops ts; rfl
  | cons m rest ih =>
    intro ft ops ts
    by_cases hrange : env.numPages < m ∨ m < 1
    · have hpred : (decide (1 ≤ m) && decide (m ≤ env.numPages)) = false := by
        simp only [Bool.and_eq_false_iff, decide_eq_false_iff_not, Nat.not_le]
        omega
      rw [performOCRGo, if_pos hrange, List.filter_cons]
      simp only [hpred, Bool.false_eq_true, if_false]
      exact ih ft ops ts
    · have hrange2 : ¬ (env.numPages < m ∨ m = 0) := by
        simpa [Nat.lt_one_iff] using hrange
      have hpred : (decide (1 ≤ m) && decide (m ≤ env.numPages)) = true := by
        simp only [Bool.and_eq_true, decide_eq_true_eq]
        omega
      rw [List.filter_cons]
      simp only [hpred, if_true]
      rcases htm : env.textItems m with e | items
      · simp [performOCRGo, hrange, hrange2, htm]
      · by_cases hlow : (jsTrim (joinSpace items)).length < 50
        · rcases him : env.extractImages m with e2 | imgs
          · simp [performOCRGo, hrange, hrange2, htm, hlow, him]
          · rcases hoi : ocrImages env.recognize (joinSpace items) imgs with e3 | pt2
            · simp [performOCRGo, hrange, hrange2, htm, hlow, him, hoi]
            · simp only [performOCRGo, hrange, hrange2, htm, hlow, him, hoi, if_true,
                if_false, ite_false, ite_true]
              simp [hrange2, hlow, ih]
        · simp only [performOCRGo, hrange, hrange2, htm, hlow]
          simp [hrange2, hlow, ih]

/-- C10 counterexample: a single in-range page whose fast-path text is
empty and whose recognizer also returns empty text still produces its
`Page 1:` header, so the result is NOT the sentinel string — refuting the
parenthetical "(or all pages yield empty text)". -/
theorem c10_counterexample :
    (performOCR (⟨1, fun _ => Except.ok [], fun _ => Except.ok ["img"],
        fun _ => Except.ok ""⟩ : OcrEnv Unit) [1]).1 =
      Except.ok ⟨"Page 1:\n\n\n"⟩ ∧
    ("Page 1:\n\n\n" : String) ≠ "No text found in the PDF." :=
  ⟨rfl, by decide⟩

/-- C10 amended: `performOCR` silently skips every out-of-range page — the
run is identical to the run on the in-range sublist, so no error is raised
and no section is produced for skipped pages while the others are
unaffected — and when every requested page is skipped the result is the
sentinel string `No text found in the PDF.`.  (In-range pages with empty
text still contribute their `Page <n>:` headers, so they do not produce the
sentinel.) -/
theorem c10_amended {ε : Type} (env : OcrEnv ε) (l : List Nat) (ft : String)
    (ops : List Nat) (ts : List Toast) :
    performOCRGo env l ft ops ts =
      performOCRGo env
        (l.filter fun n => decide (1 ≤ n) && decide (n ≤ env.numPages)) ft ops ts ∧
    ((∀ n ∈ l, env.numPages < n ∨ n < 1) →
      (performOCR env l).1 = Except.ok ⟨"No text found in the PDF."⟩) := by
  refine ⟨performOCRGo_filter_inRange env l ft ops ts, ?_⟩
  intro hall
  have hfilter : (l.filter fun n => decide (1 ≤ n) && decide (n ≤ env.numPages)) = [] := by
    rw [List.filter_eq_nil_iff]
    intro a ha
    have := hall a ha
    simp only [Bool.and_eq_true, decide_eq_true_eq, not_and, Nat.not_le]
    omega
  have hgo : performOCRGo env l "" [] [] = (Except.ok ("", []), []) := by
    rw [performOCRGo_filter_inRange env l "" [] [], hfilter]
    rfl
  unfold performOCR
  rw [hgo]
  rfl

/-- C10 witness: the amended statement on a 3-page document asked for pages
0 and 5. -/
theorem c10_amended_witness :
    performOCRGo (⟨3, fun _ => Except.ok ["t"], fun _ => Except.ok [],
        fun s => Except.ok s⟩ : OcrEnv Unit) [0, 5] "" [] [] =
      performOCRGo (⟨3, fun _ => Except.ok ["t"], fun _ => Except.ok [],
          fun s => Except.ok s⟩ : OcrEnv Unit)
        (([0, 5] : List Nat).filter fun n => decide (1 ≤ n) &&
          decide (n ≤ (⟨3, fun _ => Except.ok ["t"], fun _ => Except.ok [],
            fun s => Except.ok s⟩ : OcrEnv Unit).numPages)) "" [] [] ∧
    (performOCR (⟨3, fun _ => Except.ok ["t"], fun _ => Except.ok [],
        fun s => Except.ok s⟩ : OcrEnv Unit) [0, 5]).1 =
      Except.ok ⟨"No text found in the PDF."⟩ :=
  ⟨(c10_amended (⟨3, fun _ => Except.ok ["t"], fun _ => Except.ok [],
      fun s => Except.ok s⟩ : OcrEnv Unit) [0, 5] "" [] []).1,
   (c10_amended (⟨3, fun _ => Except.ok ["t"], fun _ => Except.ok [],
      fun s => Except.ok s⟩ : OcrEnv Unit) [0, 5] "" [] []).2 (by decide)⟩

/-- Helper: the derived message of a 429 response always mentions `429`
when the body does not parse, since it starts with `HTTP 429: `. -/
theorem strContains_http429 (body : String) :
    strContains ("HTTP 429: " ++ body) "429" = true := by
  have hdata : ("HTTP 429: " ++ body).data =
      'H' :: 'T' :: 'T' :: 'P' :: ' ' :: '4' :: '2' :: '9' :: ':' :: ' ' :: body.data := by
    rw [String.data_append]
    rfl
  rw [strContains, hdata]
  show charsContains ['4', '2', '9'] _ = true
  simp [charsContains, charsHasPfx]

/-- Helper: a transcript that went through `removeThinking` holds no
placeholder turn. -/
theorem countP_thinking_removeThinking (ms : List Message) :
    (removeThinking ms).countP (fun m => decide (m.content = thinkingMsg)) = 0 := by
  rw [List.countP_eq_zero]
  intro a ha
  have hmem := (List.mem_filter.mp ha).2
  simp only [ne_eq, decide_not, Bool.not_eq_true', decide_eq_false_iff_not] at hmem
  simp [hmem]

/-- C9 counterexample: a chat request failing with HTTP 429 whose response
body parses to a JSON error message that does not mention `429` ends with a
GENERIC assistant error turn, not the rate-limit-specific message —
refuting the claim for arbitrary 429 failures. -/
theorem c9_counterexample :
    (handleSubmit [] "hi" false true (FetchResult.response 429 "rlbody")
        (fun _ => Except.ok (Json.obj [("error",
          Json.obj [("message", Json.str "Too many requests")])]))).1.getLast? =
      some ⟨Role.assistant,
        "Error: Too many requests Please try again or rephrase your question."⟩ ∧
    strContains "Error: Too many requests Please try again or rephrase your question."
      "Rate limit" = false :=
  ⟨rfl, rfl⟩

/-- C9 amended: when a chat request fails with HTTP 429 and the response
body does not parse as JSON (so the derived error message is
`HTTP 429: <body>`, which mentions 429) and the body does not pretend to be
a network or auth error, the final transcript ends with an assistant turn
carrying the rate-limit-specific message, and no `Thinking...` placeholder
remains.  (When the 429 body parses to a JSON error message without `429`,
a generic `Error: ...` turn is produced instead — see the
counterexample.) -/
theorem c9_amended (messages : List Message) (input body pmsg : String)
    (parse : String → Except String Json)
    (hinput : jsTrim input ≠ "")
    (hparse : parse body = Except.error pmsg)
    (hb1 : strContains ("HTTP 429: " ++ body) "Failed to fetch" = false)
    (hb2 : strContains ("HTTP 429: " ++ body) "NetworkError" = false)
    (hb3 : strContains ("HTTP 429: " ++ body) "401" = false) :
    (handleSubmit messages input false true (FetchResult.response 429 body) parse).1.getLast? =
      some ⟨Role.assistant,
        "Rate limit exceeded. Please wait a moment and try again. Please try again or rephrase your question."⟩ ∧
    (handleSubmit messages input false true (FetchResult.response 429 body) parse).1.countP
      (fun m => decide (m.content = thinkingMsg)) = 0 := by
  have hmsg : deriveErrorMessage 429 body parse = "HTTP 429: " ++ body := by
    rw [deriveErrorMessage, hparse]
    rw [show (("HTTP " ++ toString (429 : Nat)) ++ ": " : String) = "HTTP 429: " from rfl]
  have hcat : categorizeError ("HTTP 429: " ++ body) =
      "Rate limit exceeded. Please wait a moment and try again." := by
    rw [categorizeError, hb1, hb2, hb3, strContains_http429]
    simp
  have hres : (handleSubmit messages input false true (FetchResult.response 429 body)
        parse).1 =
      removeThinking (removeThinking (messages ++
        [⟨Role.user, jsTrim input⟩, ⟨Role.assistant, thinkingMsg⟩])) ++
      [⟨Role.assistant,
        "Rate limit exceeded. Please wait a moment and try again. Please try again or rephrase your question."⟩] := by
    rw [handleSubmit]
    rw [if_neg (by simp [hinput])]
    rw [if_neg (by simp)]
    simp only []
    rw [if_neg (by decide)]
    rw [failTranscript, hmsg, hcat]
    rfl
  constructor
  · rw [hres, List.getLast?_concat]
  · rw [hres, List.countP_append, countP_thinking_removeThinking]
    rfl

/-- C9 witness: the amended statement for a 429 whose body is not JSON. -/
theorem c9_amended_witness :
    (handleSubmit [] "hi" false true (FetchResult.response 429 "badjson")
        (fun _ => Except.error "Unexpected token")).1.getLast? =
      some ⟨Role.assistant,
        "Rate limit exceeded. Please wait a moment and try again. Please try again or rephrase your question."⟩ ∧
    (handleSubmit [] "hi" false true (FetchResult.response 429 "badjson")
        (fun _ => Except.error "Unexpected token")).1.countP
      (fun m => decide (m.content = thinkingMsg)) = 0 :=
  c9_amended [] "hi" "badjson" "Unexpected token" (fun _ => Except.error "Unexpected token")
    (by decide) rfl (by decide) (by decide) (by decide)

/-- C8 witness: a parse failure clears the key; a parsed object leaves it. -/
theorem c8_amended_witness :
    getHistory (some "garbage") (fun _ => Except.error "bad") = ([], none) ∧
    getHistory (some "notanarr") (fun _ => Except.ok (Json.obj [])) = ([], some "notanarr") :=
  ⟨(c8_amended "garbage" (fun _ => Except.error "bad") (by decide)).1 "bad" rfl,
   (c8_amended "notanarr" (fun _ => Except.ok (Json.obj [])) (by decide)).2 (Json.obj []) rfl
     (fun xs hx => Json.noConfusion hx)⟩

end PdfChatbot
